import Mathlib

/-!
Verification development for the PM2.5 dashboard's data-cleaning and
regression helpers (`streamlit_app/scripts/data_cleaning.py` and
`streamlit_app/scripts/regression.py`).

The pandas/numpy code is shallowly embedded over exact rationals.
Float64 cells are modelled exactly: a cell is either a NaN, an exact
rational value, or a z-score.  A z-score produced by
`scipy.stats.zscore` is `(x - mean) / sqrt(variance)`; its denominator
is an (in general irrational) square root, so the embedding stores the
z-score cell as the exact pair `(numerator, variance)` representing the
real number `numerator / sqrt(variance)`.  Since `sqrt(variance) > 0`
whenever such a cell is produced, order comparisons against a rational
threshold, the sign, and the absolute value of the represented real are
all decidable from the pair, which is what the theorems use.
-/

namespace PM25

open Matrix

/-- One cell of a pandas column.  `nan` is a float64 NaN, `num q` an
exact numeric value, and `zsc d v` a z-score cell representing the real
number `d / sqrt v` (it is only ever created with `v > 0`). -/
inductive Cell where
  | nan : Cell
  | num : ℚ → Cell
  | zsc : ℚ → ℚ → Cell
  deriving DecidableEq, Repr

/-- A pandas DataFrame: an ordered list of column names together with
the cells of each column.  Names outside `columns` are mapped to the
empty column. -/
structure DataFrame where
  columns : List String
  col : String → List Cell

/-- Numeric value of a cell, `none` for NaN (mirrors how numpy treats a
NaN entry: every computation on it propagates or skips it). -/
def Cell.toNum? : Cell → Option ℚ
  | .num q => some q
  | _ => none

/-- All cells of a column as exact numbers, `none` as soon as one entry
is NaN (numpy's propagating reductions: `mean`/`std` of a column that
contains a NaN are NaN). -/
def allNums : List Cell → Option (List ℚ)
  | [] => some []
  | c :: cs =>
      match c.toNum?, allNums cs with
      | some x, some xs => some (x :: xs)
      | _, _ => none

/-- Embedding of `Series.quantile(q)` (pandas default: linear
interpolation between order statistics, NaN entries skipped, NaN result
on an empty column).  For the sorted non-NaN values `x_0 ≤ … ≤ x_(m-1)`
the result is `x_i + (h - i) * (x_(i+1) - x_i)` with `h = q * (m - 1)`
and `i = ⌊h⌋`. -/
def quantile (cells : List Cell) (q : ℚ) : Option ℚ :=
  let xs := List.insertionSort (· ≤ ·) (cells.filterMap Cell.toNum?)
  if xs.isEmpty then none
  else
    let m := xs.length
    let h : ℚ := q * ((m : ℚ) - 1)
    let i : ℕ := ⌊h⌋.toNat
    let g : ℚ := h - (i : ℚ)
    let lo := xs.getD i 0
    let hi := xs.getD (i + 1) lo
    some (lo + g * (hi - lo))

/-- Population mean and population variance (`ddof = 0`, the
`scipy.stats.zscore` default) of a list of exact values. -/
def popStats (xs : List ℚ) : ℚ × ℚ :=
  let n : ℚ := xs.length
  let mu := xs.sum / n
  (mu, (xs.map fun x => (x - mu) ^ 2).sum / n)

/-- Embedding of `scipy.stats.zscore(column)` (default
`nan_policy = propagate`, `ddof = 0`).  If the column contains a NaN,
mean and std are NaN and every output entry is NaN; if the population
variance is `0`, every entry is `0 / 0 = NaN`; otherwise entry `i` is
the real number `(x_i - mean) / sqrt(variance)`, stored exactly as the
pair cell `zsc (x_i - mean) variance`. -/
def zscoreCells (cells : List Cell) : List Cell :=
  match allNums cells with
  | none => cells.map fun _ => Cell.nan
  | some xs =>
      let mv := popStats xs
      if mv.2 = 0 then cells.map fun _ => Cell.nan
      else xs.map fun x => Cell.zsc (x - mv.1) mv.2

/-- Embedding of `np.abs` on a cell: NaN stays NaN, and
`|d / sqrt v| = |d| / sqrt v` since `sqrt v > 0`. -/
def Cell.abs : Cell → Cell
  | .nan => .nan
  | .num q => .num |q|
  | .zsc d v => .zsc |d| v

/-- Float comparison `cell < bound` where the bound may be NaN (`none`):
any comparison with NaN is false, as in IEEE-754/numpy.  (The target
column of `detect_outliers` holds only numeric and NaN cells.) -/
def cellLt (c : Cell) (b : Option ℚ) : Bool :=
  match c, b with
  | .num x, some l => decide (x < l)
  | _, _ => false

/-- Float comparison `cell > bound`, NaN on either side compares
false. -/
def cellGt (c : Cell) (b : Option ℚ) : Bool :=
  match c, b with
  | .num x, some u => decide (u < x)
  | _, _ => false

/-- Float comparison `cell > 3` applied to the `z_score` column.  For a
z-score pair `zsc d v` (representing `d / sqrt v` with `v > 0`):
`d / sqrt v > 3 ↔ d > 3 * sqrt v ↔ 0 < d ∧ d ^ 2 > 9 * v`, both sides
of the original comparison being real numbers.  NaN compares false. -/
def cellGtThree : Cell → Bool
  | .num q => decide (3 < q)
  | .zsc d v => decide (0 < d ∧ 9 * v < d ^ 2)
  | .nan => false

/-- Embedding of `df[name] = xs`: overwrite in place when the column
exists, otherwise append it as the new last column. -/
def setCol (df : DataFrame) (name : String) (xs : List Cell) : DataFrame where
  columns := if name ∈ df.columns then df.columns else df.columns ++ [name]
  col := fun c => if c = name then xs else df.col c

/-- Lower and upper IQR bounds of a column, as computed in
`detect_outliers`: `Q1 - 1.5*IQR` and `Q3 + 1.5*IQR` with
`IQR = Q3 - Q1`.  On an empty (or all-NaN) column both quantiles, hence
both bounds, are NaN. -/
def iqrBounds (cells : List Cell) : Option ℚ × Option ℚ :=
  match quantile cells (1/4), quantile cells (3/4) with
  | some a, some b => (some (a - 3/2 * (b - a)), some (b + 3/2 * (b - a)))
  | _, _ => (none, none)

/-- One entry of the `outlier_IQR` column: `np.where(x < lower or
x > upper, 1, 0)`. -/
def iqrFlag (bounds : Option ℚ × Option ℚ) (c : Cell) : Cell :=
  Cell.num (if cellLt c bounds.1 || cellGt c bounds.2 then 1 else 0)

/-- One entry of the `outlier_z` column: `np.where(z_score > 3, 1, 0)`
applied to a cell of the stored `z_score` column. -/
def zFlag (c : Cell) : Cell :=
  Cell.num (if cellGtThree c then 1 else 0)

/-- Embedding of `data_cleaning.detect_outliers(df, target_col)`:
augments a copy of the frame with `outlier_IQR` (1 iff the value is
strictly below `Q1 - 1.5*IQR` or strictly above `Q3 + 1.5*IQR`),
`z_score` (`np.abs(stats.zscore(column))`), and `outlier_z` (1 iff the
stored z-score exceeds 3).  Each step is total, as in the source (an
empty or all-NaN column gives NaN quantiles and NaN z-scores, and every
NaN comparison is false). -/
def detect_outliers (df : DataFrame) (target : String := "FactValueNumeric") :
    DataFrame :=
  let x := df.col target
  let zCol := (zscoreCells x).map Cell.abs
  setCol
    (setCol (setCol df "outlier_IQR" (x.map (iqrFlag (iqrBounds x))))
      "z_score" zCol)
    "outlier_z" (zCol.map zFlag)

/-- Number of rows of a frame (length of its first column; all columns
of a well-formed frame have the same length). -/
def nrows (df : DataFrame) : ℕ :=
  match df.columns with
  | [] => 0
  | c :: _ => (df.col c).length

/-- Row `i` of a frame: the tuple of cells of each column at index
`i`. -/
def rowAt (df : DataFrame) (i : ℕ) : List Cell :=
  df.columns.map fun c => (df.col c).getD i Cell.nan

/-- Embedding of `DataFrame.duplicated()` with the default
`keep = .first.`: scanning rows in order, a row is marked `true` iff an
identical row was seen before it. -/
def dupFlags (seen : List (List Cell)) : List (List Cell) → List Bool
  | [] => []
  | r :: rs => decide (r ∈ seen) :: dupFlags (r :: seen) rs

/-- Embedding of `data_cleaning.count_duplicates(df)`:
`df.duplicated().sum()`, the number of rows equal to some earlier
row. -/
def count_duplicates (df : DataFrame) : ℕ :=
  (dupFlags [] ((List.range (nrows df)).map (rowAt df))).count true

/-- Error kinds named by the spec's error-handling design (section 7).
The regression embedding carries them in an `Except` so that claims
about raised errors are statable. -/
inductive RegressionError where
  | missingColumn : RegressionError
  | computationError : RegressionError
  | singularMatrix : RegressionError
  | emptyInput : RegressionError
  deriving DecidableEq, Repr

/-- A fitted OLS model as returned by `statsmodels.OLS(y, X).fit()`:
the design matrix and target are stored on the results object together
with the coefficient vector. -/
structure OLSModel (n p : ℕ) where
  X : Matrix (Fin n) (Fin p) ℚ
  y : Fin n → ℚ
  beta : Fin p → ℚ

/-- Coefficient vector of the least-squares fit.  statsmodels computes
`pinv(X) @ y`; for a design matrix of full column rank this equals
`(Xᵀ X)⁻¹ Xᵀ y`, computed here by the adjugate formula
`det(Xᵀ X)⁻¹ • adjugate(Xᵀ X) *ᵥ (Xᵀ *ᵥ y)` so that the definition is
executable over `ℚ`.  For a rank-deficient design matrix the source's
pseudoinverse solution is the minimum-norm least-squares vector; there
the formula degenerates (`det = 0`), a placeholder value — no claim
concerns the coefficient values of a singular fit, only that the fit
succeeds. -/
def olsBeta {n p : ℕ} (X : Matrix (Fin n) (Fin p) ℚ) (y : Fin n → ℚ) :
    Fin p → ℚ :=
  ((X.transpose * X).det)⁻¹ •
    ((X.transpose * X).adjugate *ᵥ (X.transpose *ᵥ y))

/-- Embedding of `regression.fit_ols_model(X, y)`:
`sm.OLS(y, X).fit()` with the default pseudoinverse method has no
failure path — it returns a fitted model for every design matrix,
full-rank or not, so the embedding always returns `.ok` and never an
error. -/
def fit_ols_model {n p : ℕ} (X : Matrix (Fin n) (Fin p) ℚ)
    (y : Fin n → ℚ) : Except RegressionError (OLSModel n p) :=
  .ok ⟨X, y, olsBeta X y⟩

/-- Sum of squared residuals of a candidate coefficient vector. -/
def ssr {n p : ℕ} (X : Matrix (Fin n) (Fin p) ℚ) (y : Fin n → ℚ)
    (b : Fin p → ℚ) : ℚ :=
  ∑ i, (y i - (X *ᵥ b) i) ^ 2

/-- Fitted values of a model (`model.fittedvalues`). -/
def fittedvalues {n p : ℕ} (m : OLSModel n p) : Fin n → ℚ :=
  m.X *ᵥ m.beta

/-- Residuals of a model (`model.resid`, target minus fitted). -/
def resid {n p : ℕ} (m : OLSModel n p) : Fin n → ℚ :=
  fun i => m.y i - fittedvalues m i

/-- Sum of squared residuals of the fitted model (`model.ssr`). -/
def modelSsr {n p : ℕ} (m : OLSModel n p) : ℚ :=
  ∑ i, (resid m i) ^ 2

/-- Centered total sum of squares (`model.centered_tss`). -/
def centeredTss {n p : ℕ} (m : OLSModel n p) : ℚ :=
  ∑ i, (m.y i - (∑ j, m.y j) / (n : ℚ)) ^ 2

/-- Embedding of `model.rsquared` for a model with a constant column:
`1 - ssr / centered_tss`. -/
def rsquared {n p : ℕ} (m : OLSModel n p) : ℚ :=
  1 - modelSsr m / centeredTss m

/-- Embedding of `model.rsquared_adj` for a full-column-rank design
with a constant column: statsmodels computes
`1 - (nobs - k_constant) / df_resid * (1 - rsquared)` with
`k_constant = 1` and `df_resid = nobs - rank(X) = n - p`. -/
def rsquared_adj {n p : ℕ} (m : OLSModel n p) : ℚ :=
  1 - ((n : ℚ) - 1) / ((n : ℚ) - (p : ℚ)) * (1 - rsquared m)

/-- Embedding of the Gaussian log-likelihood `model.llf` of an OLS fit,
`-n/2 * log(2π) - n/2 * log(ssr/n) - n/2`.  The float logarithm is
embedded relationally (the characterizing equation over `ℝ`). -/
def llfRel {n p : ℕ} (m : OLSModel n p) (L : ℝ) : Prop :=
  L = -((n : ℝ) / 2) * Real.log (2 * Real.pi)
      - ((n : ℝ) / 2) * Real.log ((modelSsr m : ℝ) / (n : ℝ))
      - (n : ℝ) / 2

/-- Embedding of `model.aic`: `-2 * llf + 2 * (df_model + 1)` where
`df_model + 1 = p` counts all parameters including the intercept. -/
def aicRel {n p : ℕ} (m : OLSModel n p) (a : ℝ) : Prop :=
  ∃ L, llfRel m L ∧ a = -2 * L + 2 * (p : ℝ)

/-- The dictionary returned by
`regression.get_regression_diagnostics(model)`. -/
structure Diagnostics (n p : ℕ) where
  fitted_values : Fin n → ℚ
  residuals : Fin n → ℚ
  rsquared : ℚ
  rsquared_adj : ℚ
  aic : ℝ → Prop

/-- Embedding of `regression.get_regression_diagnostics(model)`: packs
`model.fittedvalues`, `model.resid`, `model.rsquared`,
`model.rsquared_adj` and `model.aic`. -/
def get_regression_diagnostics {n p : ℕ} (m : OLSModel n p) :
    Diagnostics n p :=
  ⟨fittedvalues m, resid m, rsquared m, rsquared_adj m, aicRel m⟩

/-- The collinear design matrix `[[1, 1], [1, 1]]` (two identical
columns, rank 1). -/
def collinearX : Matrix (Fin 2) (Fin 2) ℚ := !![1, 1; 1, 1]

/-- Target vector used with `collinearX`. -/
def collinearY : Fin 2 → ℚ := ![1, 2]

/-- Design matrix of a small regression: a constant column and one
regressor `[0, 1, 2, 3]`, full column rank. -/
def smallX : Matrix (Fin 4) (Fin 2) ℚ := !![1, 0; 1, 1; 1, 2; 1, 3]

/-- Target vector `[0, 1, 1, 2]` for `smallX`. -/
def smallY : Fin 4 → ℚ := ![0, 1, 1, 2]

/-- Test frame of the spec's IQR example: a single numeric column
`[1, 2, 3, 4, 5, 20]`. -/
def exampleSix : DataFrame where
  columns := ["FactValueNumeric"]
  col := fun c =>
    if c = "FactValueNumeric" then
      [.num 1, .num 2, .num 3, .num 4, .num 5, .num 20]
    else []

/-- Test frame of the spec's z-score example: a single numeric column
`[1]*10 + [20]`. -/
def exampleEleven : DataFrame where
  columns := ["FactValueNumeric"]
  col := fun c =>
    if c = "FactValueNumeric" then
      List.replicate 10 (Cell.num 1) ++ [.num 20]
    else []

/-- Test frame with the single column `A = [1, 1, 1]` (the spec's
duplicate-count example). -/
def exampleDupThree : DataFrame where
  columns := ["A"]
  col := fun c => if c = "A" then [.num 1, .num 1, .num 1] else []

/-- Test frame with the single column `A = [1, 2, 3]` (the spec's
no-duplicate example). -/
def exampleDistinctThree : DataFrame where
  columns := ["A"]
  col := fun c => if c = "A" then [.num 1, .num 2, .num 3] else []

/-- Test frame with the single numeric column `v = [1, 2, 3]`; its
first value lies below the column mean 2. -/
def exampleBelowMean : DataFrame where
  columns := ["v"]
  col := fun c => if c = "v" then [.num 1, .num 2, .num 3] else []

/-- Test frame with one declared column and zero rows. -/
def exampleEmpty : DataFrame where
  columns := ["FactValueNumeric"]
  col := fun _ => []

/-- Test frame whose numeric column has a NaN at index 3 (the test
suite's NaN-handling fixture `[1, 2, 3, NaN, 5, 20]`). -/
def exampleNan : DataFrame where
  columns := ["FactValueNumeric"]
  col := fun c =>
    if c = "FactValueNumeric" then
      [.num 1, .num 2, .num 3, .nan, .num 5, .num 20]
    else []

/-! Basic lemmas about the embedding. -/

lemma allNums_eq_map {cells : List Cell} {xs : List ℚ}
    (h : allNums cells = some xs) : cells = xs.map Cell.num := by
  induction cells generalizing xs with
  | nil =>
      simp [allNums] at h
      simp [← h]
  | cons c cs ih =>
      cases c with
      | nan => simp [allNums, Cell.toNum?] at h
      | zsc d v => simp [allNums, Cell.toNum?] at h
      | num q =>
          simp only [allNums, Cell.toNum?] at h
          cases hcs : allNums cs with
          | none => rw [hcs] at h; simp at h
          | some ys =>
              rw [hcs] at h
              simp only [Option.some.injEq] at h
              subst h
              simp [ih hcs]

lemma allNums_of_nan_mem {cells : List Cell} (h : Cell.nan ∈ cells) :
    allNums cells = none := by
  induction cells with
  | nil => simp at h
  | cons c cs ih =>
      rcases List.mem_cons.1 h with hh | hh
      · subst hh; simp [allNums, Cell.toNum?]
      · cases c with
        | nan => simp [allNums, Cell.toNum?]
        | zsc d v => simp [allNums, Cell.toNum?]
        | num q => simp [allNums, Cell.toNum?, ih hh]

lemma setCol_col (df : DataFrame) (name : String) (xs : List Cell) (c : String) :
    (setCol df name xs).col c = if c = name then xs else df.col c := rfl

lemma detect_col_iqr (df : DataFrame) (target : String) :
    (detect_outliers df target).col "outlier_IQR" =
      (df.col target).map (iqrFlag (iqrBounds (df.col target))) := by
  simp [detect_outliers, setCol]

lemma detect_col_zscore (df : DataFrame) (target : String) :
    (detect_outliers df target).col "z_score" =
      (zscoreCells (df.col target)).map Cell.abs := by
  simp [detect_outliers, setCol]

lemma detect_col_z (df : DataFrame) (target : String) :
    (detect_outliers df target).col "outlier_z" =
      ((zscoreCells (df.col target)).map Cell.abs).map zFlag := by
  simp [detect_outliers, setCol]

lemma detect_col_other (df : DataFrame) (target c : String)
    (h1 : c ≠ "outlier_IQR") (h2 : c ≠ "z_score") (h3 : c ≠ "outlier_z") :
    (detect_outliers df target).col c = df.col c := by
  simp [detect_outliers, setCol, h1, h2, h3]

lemma filterMap_toNum_map (xs : List ℚ) :
    (xs.map Cell.num).filterMap Cell.toNum? = xs := by
  induction xs with
  | nil => rfl
  | cons x l ih => simp [List.filterMap_cons, Cell.toNum?, ih]

lemma quantile_num_column (xs : List ℚ) (hne : xs ≠ []) (q : ℚ) :
    ∃ a, quantile (xs.map Cell.num) q = some a := by
  unfold quantile
  rw [filterMap_toNum_map]
  have h1 : (List.insertionSort (· ≤ ·) xs).isEmpty = false := by
    cases hs : List.insertionSort (· ≤ ·) xs with
    | nil =>
        have hperm := List.perm_insertionSort (· ≤ ·) xs
        rw [hs] at hperm
        exact absurd hperm.symm.eq_nil hne
    | cons a l => rfl
  simp only [h1, Bool.false_eq_true, if_false]
  exact ⟨_, rfl⟩

/-- A column of exact numeric cells with the IQR bounds evaluated. -/
lemma iqrBounds_num_column (xs : List ℚ) {q1 q3 : ℚ}
    (hq1 : quantile (xs.map Cell.num) (1/4) = some q1)
    (hq3 : quantile (xs.map Cell.num) (3/4) = some q3) :
    iqrBounds (xs.map Cell.num) =
      (some (q1 - 3/2 * (q3 - q1)), some (q3 + 3/2 * (q3 - q1))) := by
  unfold iqrBounds
  rw [hq1, hq3]

/-- Evaluation rule for `quantile` with the sorted column and the floor
of the interpolation position supplied as hypotheses. -/
lemma quantile_eval (cells : List Cell) (q : ℚ) (xs : List ℚ)
    (hs : List.insertionSort (· ≤ ·) (cells.filterMap Cell.toNum?) = xs)
    (hne : xs ≠ []) (k : ℕ)
    (hk : ⌊q * ((xs.length : ℚ) - 1)⌋ = (k : ℤ)) :
    quantile cells q =
      some (xs.getD k 0 + (q * ((xs.length : ℚ) - 1) - (k : ℚ)) *
        (xs.getD (k + 1) (xs.getD k 0) - xs.getD k 0)) := by
  unfold quantile
  rw [hs]
  have hie : xs.isEmpty = false := by
    cases xs with
    | nil => exact absurd rfl hne
    | cons a l => rfl
  simp only [hie, Bool.false_eq_true, if_false, hk, Int.toNat_ofNat]

lemma allNums_map_num (xs : List ℚ) : allNums (xs.map Cell.num) = some xs := by
  induction xs with
  | nil => rfl
  | cons x l ih => simp [allNums, Cell.toNum?, ih]

lemma zscoreCells_num_column (xs : List ℚ) (hv : (popStats xs).2 ≠ 0) :
    zscoreCells (xs.map Cell.num) =
      xs.map fun x => Cell.zsc (x - (popStats xs).1) (popStats xs).2 := by
  unfold zscoreCells
  rw [allNums_map_num]
  simp [hv]

lemma popStats_var_nonneg (xs : List ℚ) : 0 ≤ (popStats xs).2 := by
  unfold popStats
  refine div_nonneg (List.sum_nonneg ?_) (by positivity)
  intro y hy
  obtain ⟨x, _, rfl⟩ := List.mem_map.1 hy
  positivity

lemma zFlag_abs_zsc (d v : ℚ) :
    zFlag (Cell.abs (Cell.zsc d v)) =
      Cell.num (if d ≠ 0 ∧ 9 * v < d ^ 2 then 1 else 0) := by
  have h1 : (0 < |d|) = (d ≠ 0) := by
    simp [abs_pos]
  simp only [zFlag, Cell.abs, cellGtThree, sq_abs, h1, decide_eq_true_eq]

/-- Comparison of a z-score cell against the threshold 3, transported
to the real number it represents: for `v > 0`,
`|d| / sqrt v > 3 ↔ d ≠ 0 ∧ 9 v < d ^ 2`. -/
lemma absGtThree_iff (d v : ℚ) (hv : 0 < v) :
    (d ≠ 0 ∧ 9 * v < d ^ 2) ↔ (3 : ℝ) < |(d : ℝ)| / Real.sqrt (v : ℝ) := by
  have hv' : (0:ℝ) < (v:ℝ) := by exact_mod_cast hv
  have hs : (0:ℝ) < Real.sqrt (v:ℝ) := Real.sqrt_pos.2 hv'
  have hsq : Real.sqrt (v:ℝ) ^ 2 = (v:ℝ) := Real.sq_sqrt hv'.le
  rw [lt_div_iff₀ hs]
  constructor
  · rintro ⟨hd0, h9⟩
    have h9' : (9:ℝ) * (v:ℝ) < |(d:ℝ)| ^ 2 := by
      rw [sq_abs]
      exact_mod_cast h9
    nlinarith [abs_nonneg (d:ℝ), Real.sqrt_nonneg (v:ℝ)]
  · intro h
    have habs : (0:ℝ) < |(d:ℝ)| := lt_trans (by positivity) h
    have hd0 : d ≠ 0 := by
      intro hh
      rw [hh] at habs
      simp at habs
    refine ⟨hd0, ?_⟩
    have h2 : (9:ℝ) * (v:ℝ) < (d:ℝ) ^ 2 := by
      nlinarith [sq_abs (d:ℝ)]
    exact_mod_cast h2

lemma zscoreCells_of_allNums_none {cells : List Cell}
    (h : allNums cells = none) :
    zscoreCells cells = cells.map fun _ => Cell.nan := by
  unfold zscoreCells
  rw [h]

/-! Claim theorems. -/

/-- C1: on a numeric value column, `detect_outliers` sets `outlier_IQR`
to 1 for exactly the rows whose value is strictly below
`Q1 - 1.5*IQR` or strictly above `Q3 + 1.5*IQR` (`Q1`, `Q3` the linearly
interpolated 25th and 75th percentiles) and to 0 for every other row;
on the column `[1, 2, 3, 4, 5, 20]` the flags are
`[0, 0, 0, 0, 0, 1]`. -/
theorem detect_outliers_iqr_correct
    (df : DataFrame) (target : String) (xs : List ℚ)
    (hnum : allNums (df.col target) = some xs) (hne : xs ≠ []) :
    (∃ q1 q3,
      quantile (df.col target) (1/4) = some q1 ∧
      quantile (df.col target) (3/4) = some q3 ∧
      ∀ (i : ℕ) (x : ℚ), xs[i]? = some x →
        ((detect_outliers df target).col "outlier_IQR")[i]? =
          some (.num (if x < q1 - 3/2 * (q3 - q1) ∨ q3 + 3/2 * (q3 - q1) < x
            then 1 else 0))) ∧
    (detect_outliers exampleSix).col "outlier_IQR" =
      [.num 0, .num 0, .num 0, .num 0, .num 0, .num 1] := by
  constructor
  · have hc : df.col target = xs.map Cell.num := allNums_eq_map hnum
    obtain ⟨q1, hq1⟩ := quantile_num_column xs hne (1/4)
    obtain ⟨q3, hq3⟩ := quantile_num_column xs hne (3/4)
    refine ⟨q1, q3, by rw [hc]; exact hq1, by rw [hc]; exact hq3, ?_⟩
    intro i x hx
    rw [detect_col_iqr, hc, iqrBounds_num_column xs hq1 hq3, List.map_map,
      List.getElem?_map, hx]
    by_cases hlt : x < q1 - 3/2 * (q3 - q1) <;>
      by_cases hgt : q3 + 3/2 * (q3 - q1) < x <;>
      simp [iqrFlag, cellLt, cellGt, hlt, hgt]
  · rw [detect_col_iqr]
    have hcol : exampleSix.col "FactValueNumeric" =
        [Cell.num 1, .num 2, .num 3, .num 4, .num 5, .num 20] := by
      simp [exampleSix]
    rw [hcol]
    have hq1 : quantile [Cell.num 1, .num 2, .num 3, .num 4, .num 5, .num 20]
        (1/4) = some (9/4) := by
      rw [quantile_eval _ (1/4) [1, 2, 3, 4, 5, 20] (by decide) (by decide) 1
        (by norm_num)]
      norm_num [List.getD]
    have hq3 : quantile [Cell.num 1, .num 2, .num 3, .num 4, .num 5, .num 20]
        (3/4) = some (19/4) := by
      rw [quantile_eval _ (3/4) [1, 2, 3, 4, 5, 20] (by decide) (by decide) 3
        (by norm_num)]
      norm_num [List.getD]
    have hb : iqrBounds [Cell.num 1, .num 2, .num 3, .num 4, .num 5, .num 20] =
        (some (-(3/2)), some (17/2)) := by
      unfold iqrBounds
      rw [hq1, hq3]
      norm_num
    rw [hb]
    norm_num [iqrFlag, cellLt, cellGt]

/-- C1 witness: the theorem applied to the concrete frame with column
`[1, 2, 3, 4, 5, 20]`. -/
theorem detect_outliers_iqr_correct_witness :
    allNums (exampleSix.col "FactValueNumeric") = some [1, 2, 3, 4, 5, 20] ∧
    ([1, 2, 3, 4, 5, 20] : List ℚ) ≠ [] ∧
    (detect_outliers exampleSix).col "outlier_IQR" =
      [.num 0, .num 0, .num 0, .num 0, .num 0, .num 1] :=
  ⟨by decide, by decide,
    (detect_outliers_iqr_correct exampleSix "FactValueNumeric"
      [1, 2, 3, 4, 5, 20] (by decide) (by decide)).2⟩

/-- C2: on a numeric value column with nonzero variance,
`detect_outliers` computes the z-score of each entry as
`(x - mean) / std` over the full column and sets `outlier_z` to 1
exactly when `|z| > 3`; on `[1]*10 + [20]` only the trailing row is
flagged. -/
theorem detect_outliers_zscore_correct
    (df : DataFrame) (target : String) (xs : List ℚ)
    (hnum : allNums (df.col target) = some xs)
    (hv : (popStats xs).2 ≠ 0) :
    (∀ (i : ℕ) (x : ℚ), xs[i]? = some x →
      ((detect_outliers df target).col "outlier_z")[i]? =
        some (.num (if 3 < |(x : ℝ) - ((popStats xs).1 : ℝ)| /
            Real.sqrt ((popStats xs).2 : ℝ) then 1 else 0))) ∧
    (detect_outliers exampleEleven).col "outlier_z" =
      List.replicate 10 (Cell.num 0) ++ [.num 1] := by
  constructor
  · intro i x hx
    have hc : df.col target = xs.map Cell.num := allNums_eq_map hnum
    have hv' : 0 < (popStats xs).2 := (popStats_var_nonneg xs).lt_of_ne
      (fun h => hv h.symm)
    rw [detect_col_z, hc, zscoreCells_num_column xs hv, List.map_map,
      List.map_map, List.getElem?_map, hx, Option.map_some']
    rw [Function.comp_apply, Function.comp_apply, zFlag_abs_zsc]
    have hiff := absGtThree_iff (x - (popStats xs).1) (popStats xs).2 hv'
    have hcast : |((x - (popStats xs).1 : ℚ) : ℝ)| =
        |(x : ℝ) - ((popStats xs).1 : ℝ)| := by
      push_cast
      rfl
    rw [hcast] at hiff
    by_cases h : 3 < |(x : ℝ) - ((popStats xs).1 : ℝ)| /
        Real.sqrt ((popStats xs).2 : ℝ)
    · rw [if_pos (hiff.2 h), if_pos h]
    · rw [if_neg (fun hh => h (hiff.1 hh)), if_neg h]
  · rw [detect_col_z]
    have hcol : exampleEleven.col "FactValueNumeric" =
        List.map Cell.num [1, 1, 1, 1, 1, 1, 1, 1, 1, 1, 20] := by decide
    have hps : popStats [1, 1, 1, 1, 1, 1, 1, 1, 1, 1, (20:ℚ)] =
        (30/11, 3610/121) := by
      norm_num [popStats]
    rw [hcol, zscoreCells_num_column _ (by rw [hps]; norm_num), hps,
      List.map_map, List.map_map]
    norm_num [zFlag_abs_zsc, Function.comp]
    decide

/-- C2 witness: the theorem applied to the concrete frame with column
`[1]*10 + [20]`. -/
theorem detect_outliers_zscore_correct_witness :
    allNums (exampleEleven.col "FactValueNumeric") =
      some [1, 1, 1, 1, 1, 1, 1, 1, 1, 1, 20] ∧
    (popStats [1, 1, 1, 1, 1, 1, 1, 1, 1, 1, (20:ℚ)]).2 ≠ 0 ∧
    (detect_outliers exampleEleven).col "outlier_z" =
      List.replicate 10 (Cell.num 0) ++ [.num 1] :=
  ⟨by decide, by norm_num [popStats],
    (detect_outliers_zscore_correct exampleEleven "FactValueNumeric"
      [1, 1, 1, 1, 1, 1, 1, 1, 1, 1, 20] (by decide)
      (by norm_num [popStats])).2⟩

/-- C4: a NaN entry of the value column is never flagged as an outlier
by either method: its `outlier_IQR` and `outlier_z` entries are both
0. -/
theorem detect_outliers_nan_never_flagged
    (df : DataFrame) (target : String) (i : ℕ)
    (h : (df.col target)[i]? = some Cell.nan) :
    ((detect_outliers df target).col "outlier_IQR")[i]? = some (.num 0) ∧
    ((detect_outliers df target).col "outlier_z")[i]? = some (.num 0) := by
  constructor
  · rw [detect_col_iqr, List.getElem?_map, h, Option.map_some']
    simp [iqrFlag, cellLt, cellGt]
  · have hnone : allNums (df.col target) = none := by
      cases hall : allNums (df.col target) with
      | none => rfl
      | some xs =>
          have hc := allNums_eq_map hall
          rw [hc, List.getElem?_map] at h
          cases hxs : xs[i]? with
          | none => rw [hxs] at h; simp at h
          | some x => rw [hxs] at h; simp at h
    rw [detect_col_z, zscoreCells_of_allNums_none hnone, List.map_map,
      List.map_map, List.getElem?_map, h, Option.map_some']
    simp [zFlag, Cell.abs, cellGtThree, Function.comp]

/-- C4 witness: the theorem applied at the NaN entry (index 3) of the
frame `[1, 2, 3, NaN, 5, 20]`. -/
theorem detect_outliers_nan_never_flagged_witness :
    (exampleNan.col "FactValueNumeric")[3]? = some Cell.nan ∧
    (((detect_outliers exampleNan).col "outlier_IQR")[3]? =
        some (.num 0) ∧
      ((detect_outliers exampleNan).col "outlier_z")[3]? = some (.num 0)) :=
  ⟨by decide,
    detect_outliers_nan_never_flagged exampleNan "FactValueNumeric" 3
      (by decide)⟩

/-- C5: as soon as the value column contains one NaN, every entry of
the returned `z_score` column is NaN and every entry of `outlier_z` is
0 — a single NaN disables z-score flagging for the whole column. -/
theorem detect_outliers_nan_poisons_zscore
    (df : DataFrame) (target : String)
    (h : Cell.nan ∈ df.col target) :
    ∀ i : ℕ, i < (df.col target).length →
      ((detect_outliers df target).col "z_score")[i]? = some Cell.nan ∧
      ((detect_outliers df target).col "outlier_z")[i]? = some (.num 0) := by
  intro i hi
  have hnone := allNums_of_nan_mem h
  have hsome : (df.col target)[i]? = some (df.col target)[i] :=
    List.getElem?_eq_getElem hi
  constructor
  · rw [detect_col_zscore, zscoreCells_of_allNums_none hnone, List.map_map,
      List.getElem?_map, hsome, Option.map_some']
    simp [Cell.abs, Function.comp]
  · rw [detect_col_z, zscoreCells_of_allNums_none hnone, List.map_map,
      List.map_map, List.getElem?_map, hsome, Option.map_some']
    simp [zFlag, Cell.abs, cellGtThree, Function.comp]

/-- C5 witness: the theorem applied to the frame `[1, 2, 3, NaN, 5, 20]`
at index 0, a row whose own value is not NaN. -/
theorem detect_outliers_nan_poisons_zscore_witness :
    Cell.nan ∈ exampleNan.col "FactValueNumeric" ∧
    (0 < (exampleNan.col "FactValueNumeric").length ∧
      ((detect_outliers exampleNan).col "z_score")[0]? = some Cell.nan ∧
      ((detect_outliers exampleNan).col "outlier_z")[0]? = some (.num 0)) :=
  ⟨by decide, by decide,
    detect_outliers_nan_poisons_zscore exampleNan "FactValueNumeric"
      (by decide) 0 (by decide)⟩

/-- C6: on a zero-row frame whose value column is declared,
`detect_outliers` returns (without any failure path — every step of the
embedding is total) a zero-row frame whose columns are the original
ones followed by exactly `outlier_IQR`, `z_score`, `outlier_z`. -/
theorem detect_outliers_empty_frame
    (df : DataFrame) (target : String)
    (hz : ∀ c ∈ df.columns, df.col c = [])
    (ht : target ∈ df.columns)
    (h1 : "outlier_IQR" ∉ df.columns) (h2 : "z_score" ∉ df.columns)
    (h3 : "outlier_z" ∉ df.columns) :
    (detect_outliers df target).columns =
      df.columns ++ ["outlier_IQR", "z_score", "outlier_z"] ∧
    ∀ c ∈ (detect_outliers df target).columns,
      (detect_outliers df target).col c = [] := by
  have hx : df.col target = [] := hz target ht
  have hzs : zscoreCells (df.col target) = [] := by
    rw [hx]
    simp [zscoreCells, allNums, ite_self]
  have hcols : (detect_outliers df target).columns =
      df.columns ++ ["outlier_IQR", "z_score", "outlier_z"] := by
    have m1 : ("z_score" : String) ∉ df.columns ++ ["outlier_IQR"] := by
      intro hh
      rcases List.mem_append.1 hh with hh | hh
      · exact h2 hh
      · simp at hh
    have m2 : ("outlier_z" : String) ∉
        (df.columns ++ ["outlier_IQR"]) ++ ["z_score"] := by
      intro hh
      rcases List.mem_append.1 hh with hh | hh
      · rcases List.mem_append.1 hh with hh | hh
        · exact h3 hh
        · simp at hh
      · simp at hh
    show (setCol (setCol (setCol df "outlier_IQR" _) "z_score" _)
      "outlier_z" _).columns = _
    unfold setCol
    simp only [if_neg h1, if_neg m1, if_neg m2]
    simp
  refine ⟨hcols, ?_⟩
  intro c hc
  by_cases e3 : c = "outlier_z"
  · subst e3
    rw [detect_col_z, hzs]
    rfl
  by_cases e2 : c = "z_score"
  · subst e2
    rw [detect_col_zscore, hzs]
    rfl
  by_cases e1 : c = "outlier_IQR"
  · subst e1
    rw [detect_col_iqr, hx]
    rfl
  · rw [detect_col_other df target c e1 e2 e3]
    rw [hcols, List.mem_append] at hc
    rcases hc with hc | hc
    · exact hz c hc
    · simp [e1, e2, e3] at hc

/-- C6 witness: the theorem applied to a zero-row frame with the single
declared column `FactValueNumeric`. -/
theorem detect_outliers_empty_frame_witness :
    (∀ c ∈ exampleEmpty.columns, exampleEmpty.col c = []) ∧
    "FactValueNumeric" ∈ exampleEmpty.columns ∧
    ((detect_outliers exampleEmpty).columns =
        exampleEmpty.columns ++ ["outlier_IQR", "z_score", "outlier_z"] ∧
      ∀ c ∈ (detect_outliers exampleEmpty).columns,
        (detect_outliers exampleEmpty).col c = []) :=
  ⟨by decide, by decide,
    detect_outliers_empty_frame exampleEmpty "FactValueNumeric" (by decide)
      (by decide) (by decide) (by decide) (by decide)⟩

/-- C8 counterexample: on the column `[1, 2, 3]` the value 1 of row 0
lies strictly below the column mean 2, and its raw z-score (computed by
`stats.zscore`) is the cell `zsc (-1) (2/3)`, i.e. the negative real
`-1 / sqrt (2/3)`; but the stored `z_score` entry is `zsc 1 (2/3)` (the
source applies `np.abs`), a different cell representing the nonnegative
real `1 / sqrt (2/3)`.  So the stored entry is not the raw signed
z-score and is not negative for a below-mean value. -/
theorem detect_outliers_zscore_sign_counterexample :
    (zscoreCells (exampleBelowMean.col "v"))[0]? = some (.zsc (-1) (2/3)) ∧
    ((detect_outliers exampleBelowMean "v").col "z_score")[0]? =
      some (.zsc 1 (2/3)) ∧
    Cell.zsc (1 : ℚ) (2/3) ≠ Cell.zsc (-1 : ℚ) (2/3) ∧
    ¬ ((1 : ℝ) / Real.sqrt ((2 : ℝ)/3) < 0) := by
  have hcol : exampleBelowMean.col "v" =
      List.map Cell.num [1, 2, 3] := by decide
  have hps : popStats [(1:ℚ), 2, 3] = (2, 2/3) := by
    norm_num [popStats]
  have hraw : zscoreCells (exampleBelowMean.col "v") =
      List.map (fun x => Cell.zsc (x - 2) (2/3)) [1, 2, 3] := by
    rw [hcol, zscoreCells_num_column _ (by rw [hps]; norm_num), hps]
  refine ⟨?_, ?_, by norm_num, ?_⟩
  · rw [hraw]
    norm_num
  · rw [detect_col_zscore, hraw, List.map_map]
    norm_num [Cell.abs, Function.comp, abs_of_nonpos]
  · push_neg
    positivity

/-- C8 amended: the `z_score` column stores the absolute value of the
raw z-score, cell by cell: every stored z-score entry arises from the
corresponding `stats.zscore` entry by `np.abs` on the numerator, its
numerator is nonnegative and the real number it represents is
nonnegative (never negative, also for values below the mean). -/
theorem detect_outliers_zscore_is_abs
    (df : DataFrame) (target : String) (i : ℕ) (d v : ℚ)
    (h : ((detect_outliers df target).col "z_score")[i]? =
      some (.zsc d v)) :
    0 ≤ d ∧ (0 : ℝ) ≤ (d : ℝ) / Real.sqrt (v : ℝ) ∧
    ∃ d0, (zscoreCells (df.col target))[i]? = some (.zsc d0 v) ∧
      d = |d0| := by
  rw [detect_col_zscore, List.getElem?_map] at h
  cases hc : (zscoreCells (df.col target))[i]? with
  | none => rw [hc] at h; simp at h
  | some c =>
      rw [hc, Option.map_some'] at h
      cases c with
      | nan => simp [Cell.abs] at h
      | num q => simp [Cell.abs] at h
      | zsc d0 v0 =>
          simp only [Cell.abs, Option.some.injEq, Cell.zsc.injEq] at h
          obtain ⟨hd, hv⟩ := h
          have hd0 : 0 ≤ d := hd ▸ abs_nonneg d0
          have hr : (0 : ℝ) ≤ (d : ℝ) / Real.sqrt (v : ℝ) := by
            have hcast : (0 : ℝ) ≤ (d : ℝ) := by exact_mod_cast hd0
            exact div_nonneg hcast (Real.sqrt_nonneg _)
          refine ⟨hd0, hr, d0, ?_, hd.symm⟩
          rw [hv]

/-- C8 witness: the amended theorem applied at row 0 of the column
`[1, 2, 3]`, whose value lies below the mean. -/
theorem detect_outliers_zscore_is_abs_witness :
    ((detect_outliers exampleBelowMean "v").col "z_score")[0]? =
      some (.zsc 1 (2/3)) ∧
    (0 ≤ (1 : ℚ) ∧
      (0 : ℝ) ≤ ((1 : ℚ) : ℝ) / Real.sqrt (((2 : ℚ)/3 : ℚ) : ℝ) ∧
      ∃ d0, (zscoreCells (exampleBelowMean.col "v"))[0]? =
        some (.zsc d0 (2/3)) ∧ (1 : ℚ) = |d0|) := by
  have hcol : exampleBelowMean.col "v" = List.map Cell.num [1, 2, 3] := by
    decide
  have hps : popStats [(1:ℚ), 2, 3] = (2, 2/3) := by
    norm_num [popStats]
  have h : ((detect_outliers exampleBelowMean "v").col "z_score")[0]? =
      some (.zsc 1 (2/3)) := by
    rw [detect_col_zscore, hcol,
      zscoreCells_num_column _ (by rw [hps]; norm_num), hps, List.map_map]
    norm_num [Cell.abs, Function.comp, abs_of_nonpos]
  exact ⟨h, detect_outliers_zscore_is_abs exampleBelowMean "v" 0 1 (2/3) h⟩

/-- C9: `detect_outliers` is idempotent on its flag columns — as long
as the target column is not itself one of the three generated columns,
re-running `detect_outliers` on its own output recomputes the same
`outlier_IQR`, `z_score` and `outlier_z` columns (the pre-existing ones
are overwritten, not consulted). -/
theorem detect_outliers_idempotent
    (df : DataFrame) (target : String)
    (h1 : target ≠ "outlier_IQR") (h2 : target ≠ "z_score")
    (h3 : target ≠ "outlier_z") :
    ∀ name ∈ (["outlier_IQR", "z_score", "outlier_z"] : List String),
      (detect_outliers (detect_outliers df target) target).col name =
        (detect_outliers df target).col name := by
  have hpres : (detect_outliers df target).col target = df.col target :=
    detect_col_other df target target h1 h2 h3
  intro name hname
  simp only [List.mem_cons, List.mem_singleton, List.not_mem_nil,
    or_false] at hname
  rcases hname with rfl | rfl | rfl
  · rw [detect_col_iqr, detect_col_iqr, hpres]
  · rw [detect_col_zscore, detect_col_zscore, hpres]
  · rw [detect_col_z, detect_col_z, hpres]

/-- C9 witness: the theorem applied to the frame with column
`[1, 2, 3, 4, 5, 20]` and the default target column. -/
theorem detect_outliers_idempotent_witness :
    ("FactValueNumeric" : String) ≠ "outlier_IQR" ∧
    ("FactValueNumeric" : String) ≠ "z_score" ∧
    ("FactValueNumeric" : String) ≠ "outlier_z" ∧
    ∀ name ∈ (["outlier_IQR", "z_score", "outlier_z"] : List String),
      (detect_outliers (detect_outliers exampleSix "FactValueNumeric")
          "FactValueNumeric").col name =
        (detect_outliers exampleSix "FactValueNumeric").col name :=
  ⟨by decide, by decide, by decide,
    detect_outliers_idempotent exampleSix "FactValueNumeric" (by decide)
      (by decide) (by decide)⟩

lemma dupFlags_count (rs : List (List Cell)) : ∀ seen,
    (dupFlags seen rs).count true =
      ((List.range rs.length).filter fun i =>
        decide (rs.getD i [] ∈ seen ++ rs.take i)).length := by
  induction rs with
  | nil => intro seen; rfl
  | cons r rs ih =>
      intro seen
      rw [dupFlags, List.length_cons, List.range_succ_eq_map,
        List.filter_cons, List.filter_map]
      simp only [Function.comp_def, Nat.succ_eq_add_one]
      have hcongr : ∀ i ∈ List.range rs.length,
          decide ((r :: rs).getD (i + 1) [] ∈ seen ++ (r :: rs).take (i + 1))
            = decide (rs.getD i [] ∈ (r :: seen) ++ rs.take i) := by
        intro i _
        simp only [List.getD_cons_succ, List.take_succ_cons,
          decide_eq_decide, List.mem_append, List.mem_cons]
        tauto
      rw [@List.filter_congr _
        (fun i =>
          decide ((r :: rs).getD (i + 1) [] ∈ seen ++ (r :: rs).take (i + 1)))
        (fun i => decide (rs.getD i [] ∈ (r :: seen) ++ rs.take i))
        (List.range rs.length) hcongr]
      simp only [List.getD_cons_zero, List.take_zero, List.append_nil,
        decide_eq_true_eq, List.count_cons]
      by_cases hr : r ∈ seen <;>
        simp [hr, ih (r :: seen), List.length_map]

/-- C10: `count_duplicates` returns the number of rows equal to some
earlier identical row (total duplicate rows, not matching groups); on a
single column `[1, 1, 1]` it returns 2 and on `[1, 2, 3]` it returns
0. -/
theorem count_duplicates_correct (df : DataFrame) :
    count_duplicates df =
      ((List.range (nrows df)).filter fun i =>
        decide (∃ j, j < i ∧ rowAt df j = rowAt df i)).length ∧
    count_duplicates exampleDupThree = 2 ∧
    count_duplicates exampleDistinctThree = 0 := by
  refine ⟨?_, by decide, by decide⟩
  unfold count_duplicates
  rw [dupFlags_count _ [], List.length_map, List.length_range]
  congr 1
  apply List.filter_congr
  intro i hi
  rw [List.mem_range] at hi
  have h1 : ((List.range (nrows df)).map (rowAt df)).getD i [] =
      rowAt df i := by
    rw [List.getD_eq_getElem?_getD, List.getElem?_map,
      List.getElem?_range hi, Option.map_some', Option.getD_some]
  have h2 : ((List.range (nrows df)).map (rowAt df)).take i =
      (List.range i).map (rowAt df) := by
    rw [← List.map_take, List.take_range, Nat.min_eq_left hi.le]
  rw [h1, h2, decide_eq_decide, List.nil_append, List.mem_map]
  constructor
  · rintro ⟨j, hj, hje⟩
    rw [List.mem_range] at hj
    exact ⟨j, hj, hje⟩
  · rintro ⟨j, hj, hje⟩
    exact ⟨j, List.mem_range.2 hj, hje⟩

/-- C3 counterexample: the design matrix `[[1, 1], [1, 1]]` has two
perfectly collinear columns (`det (Xᵀ X) = 0`), yet `fit_ols_model`
does not fail with a SingularMatrixError — statsmodels' pseudoinverse
fit has no failure path, and the embedding returns a fitted model. -/
theorem fit_ols_model_no_singular_error :
    (collinearX.transpose * collinearX).det = 0 ∧
    fit_ols_model collinearX collinearY ≠
      Except.error RegressionError.singularMatrix ∧
    fit_ols_model collinearX collinearY =
      Except.ok ⟨collinearX, collinearY, olsBeta collinearX collinearY⟩ := by
  refine ⟨?_, by simp [fit_ols_model], rfl⟩
  norm_num [Matrix.det_fin_two, Matrix.mul_apply, Fin.sum_univ_two,
    collinearX, Matrix.transpose_apply]

/-- C3 amended: `fit_ols_model` returns a fitted model for every design
matrix (it never raises); when the design matrix has full column rank
(`det (Xᵀ X) ≠ 0`), the returned coefficient vector minimizes the sum
of squared residuals over all coefficient vectors. -/
theorem fit_ols_model_full_rank
    {n p : ℕ} (X : Matrix (Fin n) (Fin p) ℚ) (y : Fin n → ℚ)
    (hdet : (X.transpose * X).det ≠ 0) :
    fit_ols_model X y = Except.ok ⟨X, y, olsBeta X y⟩ ∧
    ∀ b : Fin p → ℚ, ssr X y (olsBeta X y) ≤ ssr X y b := by
  refine ⟨rfl, ?_⟩
  have hnormal : (X.transpose * X) *ᵥ olsBeta X y = X.transpose *ᵥ y := by
    unfold olsBeta
    rw [Matrix.mulVec_smul, Matrix.mulVec_mulVec, Matrix.mul_adjugate,
      Matrix.smul_mulVec_assoc, Matrix.one_mulVec, smul_smul,
      inv_mul_cancel₀ hdet, one_smul]
  intro b
  set β := olsBeta X y with hβ
  have hresid0 : X.transpose *ᵥ (fun i => y i - (X *ᵥ β) i) = 0 := by
    have h1 : (fun i => y i - (X *ᵥ β) i) = y - X *ᵥ β := rfl
    rw [h1, Matrix.mulVec_sub, Matrix.mulVec_mulVec, hnormal, sub_self]
  have cross : (∑ i, (y i - (X *ᵥ β) i) * (X *ᵥ (β - b)) i) = 0 := by
    have h2 : (∑ i, (y i - (X *ᵥ β) i) * (X *ᵥ (β - b)) i) =
        Matrix.dotProduct (fun i => y i - (X *ᵥ β) i) (X *ᵥ (β - b)) := rfl
    rw [h2, Matrix.dotProduct_mulVec]
    have h3 : Matrix.vecMul (fun i => y i - (X *ᵥ β) i) X =
        X.transpose *ᵥ (fun i => y i - (X *ᵥ β) i) := by
      calc Matrix.vecMul (fun i => y i - (X *ᵥ β) i) X
          = Matrix.vecMul (fun i => y i - (X *ᵥ β) i)
              X.transpose.transpose := by rw [Matrix.transpose_transpose]
        _ = X.transpose *ᵥ (fun i => y i - (X *ᵥ β) i) :=
            Matrix.vecMul_transpose _ _
    rw [h3, hresid0, Matrix.zero_dotProduct]
  have hterm : ∀ i, y i - (X *ᵥ b) i =
      (y i - (X *ᵥ β) i) + (X *ᵥ (β - b)) i := by
    intro i
    have hs := congrFun (Matrix.mulVec_sub X β b) i
    rw [hs, Pi.sub_apply]
    ring
  have hexpand : ssr X y b =
      ssr X y β + 2 * (∑ i, (y i - (X *ᵥ β) i) * (X *ᵥ (β - b)) i) +
        ∑ i, ((X *ᵥ (β - b)) i) ^ 2 := by
    unfold ssr
    rw [Finset.mul_sum, ← Finset.sum_add_distrib, ← Finset.sum_add_distrib]
    apply Finset.sum_congr rfl
    intro i _
    rw [hterm i]
    ring
  have hsq : 0 ≤ ∑ i, ((X *ᵥ (β - b)) i) ^ 2 :=
    Finset.sum_nonneg fun i _ => sq_nonneg _
  rw [hexpand, cross]
  linarith

/-- C3 witness: the amended theorem applied to the full-column-rank
design `[[1,0],[1,1],[1,2],[1,3]]` with target `[0,1,1,2]`. -/
theorem fit_ols_model_full_rank_witness :
    (smallX.transpose * smallX).det ≠ 0 ∧
    (fit_ols_model smallX smallY =
        Except.ok ⟨smallX, smallY, olsBeta smallX smallY⟩ ∧
      ∀ b : Fin 2 → ℚ, ssr smallX smallY (olsBeta smallX smallY) ≤
        ssr smallX smallY b) := by
  have hdet : (smallX.transpose * smallX).det ≠ 0 := by
    norm_num [Matrix.det_fin_two, Matrix.mul_apply, Fin.sum_univ_four,
      smallX, Matrix.transpose_apply, Matrix.cons_val_zero,
      Matrix.cons_val_one, Matrix.head_cons, Matrix.vecHead, Matrix.vecTail,
      Matrix.cons_val', Matrix.empty_val', Matrix.cons_val_fin_one,
      Function.comp]
  exact ⟨hdet, fit_ols_model_full_rank smallX smallY hdet⟩

/-- C7 counterexample: for the model fitted on
`X = [[1,0],[1,1],[1,2],[1,3]]`, `y = [0,1,1,2]` (n = 4 rows, p = 2
parameters including the intercept) the code's adjusted R² is
`1 - (1 - R²) (n-1)/(n-p) = 17/20` (statsmodels divides by
`df_resid = n - p`), while the claim's formula
`1 - (1 - R²) (n-1)/(n-p-1)` gives `7/10 ≠ 17/20`. -/
theorem get_regression_diagnostics_adj_r2_counterexample :
    (get_regression_diagnostics
      ⟨smallX, smallY, olsBeta smallX smallY⟩).rsquared = 9/10 ∧
    (get_regression_diagnostics
      ⟨smallX, smallY, olsBeta smallX smallY⟩).rsquared_adj = 17/20 ∧
    (17/20 : ℚ) ≠ 1 - (1 - 9/10) * ((4 : ℚ) - 1) / ((4 : ℚ) - 2 - 1) := by
  have hbeta : olsBeta smallX smallY = ![1/10, 3/5] := by
    funext i
    fin_cases i <;>
      norm_num [olsBeta, Matrix.adjugate_fin_two, Matrix.det_fin_two,
        Matrix.mul_apply, Matrix.mulVec, Matrix.dotProduct,
        Fin.sum_univ_four, Fin.sum_univ_two, smallX, smallY,
        Matrix.transpose_apply, Matrix.cons_val_zero, Matrix.cons_val_one,
        Matrix.head_cons, Matrix.vecHead, Matrix.vecTail, Matrix.cons_val',
        Matrix.empty_val', Matrix.cons_val_fin_one, Function.comp,
        Pi.smul_apply, smul_eq_mul]
  have hssr : modelSsr ⟨smallX, smallY, olsBeta smallX smallY⟩ = 1/5 := by
    unfold modelSsr resid fittedvalues
    simp only [hbeta]
    norm_num [Matrix.mulVec, Matrix.dotProduct, Fin.sum_univ_four,
      Fin.sum_univ_two, smallX, smallY, Matrix.cons_val_zero,
      Matrix.cons_val_one, Matrix.head_cons, Matrix.vecHead, Matrix.vecTail,
      Matrix.cons_val', Matrix.empty_val', Matrix.cons_val_fin_one,
      Function.comp]
  have htss : centeredTss ⟨smallX, smallY, olsBeta smallX smallY⟩ = 2 := by
    norm_num [centeredTss, Fin.sum_univ_four, smallY, Matrix.cons_val_zero,
      Matrix.cons_val_one, Matrix.head_cons, Matrix.vecHead, Matrix.vecTail,
      Matrix.cons_val', Matrix.empty_val', Matrix.cons_val_fin_one,
      Function.comp]
  have hr2 : (get_regression_diagnostics
      ⟨smallX, smallY, olsBeta smallX smallY⟩).rsquared = 9/10 := by
    show rsquared _ = 9/10
    rw [rsquared, hssr, htss]
    norm_num
  refine ⟨hr2, ?_, by norm_num⟩
  show rsquared_adj _ = 17/20
  rw [rsquared_adj]
  have hr2' : rsquared ⟨smallX, smallY, olsBeta smallX smallY⟩ = 9/10 := hr2
  rw [hr2']
  norm_num

/-- C7 amended: for a model returned by `fit_ols_model`, the
diagnostics are: fitted values `X β`, residuals target minus fitted,
`R² = 1 - SS_res / SS_tot` (centered total sum of squares), adjusted
`R² = 1 - (1 - R²) (n-1)/(n-p)` with `p` the parameter count including
the intercept (statsmodels divides by `df_resid = n - p`, not
`n - p - 1`), and `AIC = n ln(SS_res/n) + 2 p + n (ln(2π) + 1)` (the
Gaussian-likelihood AIC keeps the constant terms that the
least-squares form drops). -/
theorem get_regression_diagnostics_formulas
    {n p : ℕ} (X : Matrix (Fin n) (Fin p) ℚ) (y : Fin n → ℚ)
    (m : OLSModel n p) (hm : fit_ols_model X y = Except.ok m) :
    (get_regression_diagnostics m).fitted_values = X *ᵥ m.beta ∧
    (∀ i, (get_regression_diagnostics m).residuals i =
      y i - (X *ᵥ m.beta) i) ∧
    (get_regression_diagnostics m).rsquared =
      1 - (∑ i, (y i - (X *ᵥ m.beta) i) ^ 2) /
        (∑ i, (y i - (∑ j, y j) / (n : ℚ)) ^ 2) ∧
    (get_regression_diagnostics m).rsquared_adj =
      1 - ((n : ℚ) - 1) / ((n : ℚ) - (p : ℚ)) *
        (1 - (get_regression_diagnostics m).rsquared) ∧
    ∀ a : ℝ, (get_regression_diagnostics m).aic a →
      a = (n : ℝ) * Real.log ((modelSsr m : ℝ) / (n : ℝ)) + 2 * (p : ℝ) +
        (n : ℝ) * (Real.log (2 * Real.pi) + 1) := by
  have hmm : (⟨X, y, olsBeta X y⟩ : OLSModel n p) = m := by
    simpa [fit_ols_model] using hm
  subst hmm
  refine ⟨rfl, fun i => rfl, rfl, rfl, ?_⟩
  rintro a ⟨L, hL, ha⟩
  rw [ha, hL]
  ring

/-- C7 witness: the amended theorem applied to the model fitted on
`[[1,0],[1,1],[1,2],[1,3]]` with target `[0,1,1,2]`, specialized to the
adjusted-R² clause. -/
theorem get_regression_diagnostics_formulas_witness :
    fit_ols_model smallX smallY =
      Except.ok ⟨smallX, smallY, olsBeta smallX smallY⟩ ∧
    (get_regression_diagnostics
        ⟨smallX, smallY, olsBeta smallX smallY⟩).rsquared_adj =
      1 - (((4 : ℕ) : ℚ) - 1) / (((4 : ℕ) : ℚ) - ((2 : ℕ) : ℚ)) *
        (1 - (get_regression_diagnostics
          ⟨smallX, smallY, olsBeta smallX smallY⟩).rsquared) :=
  ⟨rfl,
    (get_regression_diagnostics_formulas smallX smallY
      ⟨smallX, smallY, olsBeta smallX smallY⟩ rfl).2.2.2.1⟩

end PM25
